import Mathlib

/-!
Verification of the AI Study Assistant backend (`backend/main.py`).

The development shallowly embeds the pure logic of the backend:
the text chunker `chunk_text`, the Ollama fallback client
`query_ollama` (with the network abstracted as an oracle assigning an
outcome to each generation request), the installed-model listing
`get_available_models`, and the question-answering route
`ask_question`.  Strings are modelled by Lean `String`s, text by
`List Char`.
-/

namespace StudyAssistant

/-! ## Python string helpers

`charsStart pat l` is Python's `l.startswith(pat)` on character lists;
`charsContain pat l` is Python's `pat in l` (substring containment);
`pyLower` is `str.lower` (ASCII-sufficient for the messages involved);
`pyIn` is the substring test on `String`s. -/

def charsStart : List Char → List Char → Bool
  | [], _ => true
  | _ :: _, [] => false
  | p :: ps, c :: cs => p == c && charsStart ps cs

def charsContain (pat : List Char) : List Char → Bool
  | [] => charsStart pat []
  | c :: cs => charsStart pat (c :: cs) || charsContain pat cs

def pyLower (s : String) : String := String.mk (s.toList.map Char.toLower)

def pyIn (pat s : String) : Bool := charsContain pat.toList s.toList

/-! ## Chunker (`chunk_text`, main.py lines 118-138)

The Python loop
```
start = 0
while start < len(text):
    chunks.append(text[start:start + chunk_size])
    start += max(chunk_size - overlap, 1)
```
is embedded with an explicit fuel argument; since the window advance is
at least one character, `text.length` iterations always suffice
(`chunkFrom_congr` below shows any sufficient fuel gives the same
value).  Sizes are naturals: `max (chunk_size - overlap) 1` on `Nat`
agrees with Python's `max(chunk_size - overlap, 1)` on integers for
all non-negative parameters. -/

def slideStep (chunk_size overlap : Nat) : Nat := max (chunk_size - overlap) 1

def chunkFrom (text : List Char) (chunk_size overlap : Nat) : Nat → Nat → List (List Char)
  | 0, _ => []
  | fuel + 1, start =>
    if start < text.length then
      ((text.drop start).take chunk_size) ::
        chunkFrom text chunk_size overlap fuel (start + slideStep chunk_size overlap)
    else []

def chunk_text (text : List Char) (chunk_size overlap : Nat) : List (List Char) :=
  if text.isEmpty then [] else chunkFrom text chunk_size overlap text.length 0

/-- The reference sliding window, written from the specification's
words: the chunk starts are the multiples of the advance
`max (chunk_size - overlap, 1)` that are below `len(text)`, and the
chunk at offset `start` is `text[start : start + chunk_size]`. -/
def refChunkText (text : List Char) (chunk_size overlap : Nat) : List (List Char) :=
  let step := max (chunk_size - overlap) 1
  (List.range ((text.length + step - 1) / step)).map
    (fun k => (text.drop (k * step)).take chunk_size)

theorem slideStep_pos (c o : Nat) : 1 ≤ slideStep c o := le_max_right _ _

theorem chunkFrom_of_le (text : List Char) (c o : Nat) :
    ∀ fuel start, text.length ≤ start → chunkFrom text c o fuel start = [] := by
  intro fuel start h
  cases fuel with
  | zero => rfl
  | succ n => simp [chunkFrom, Nat.not_lt.mpr h]

theorem chunkFrom_congr (text : List Char) (c o : Nat) :
    ∀ fuel₁ fuel₂ start, text.length - start ≤ fuel₁ → text.length - start ≤ fuel₂ →
      chunkFrom text c o fuel₁ start = chunkFrom text c o fuel₂ start := by
  intro fuel₁
  induction fuel₁ with
  | zero =>
    intro fuel₂ start h₁ _
    have hs : text.length ≤ start := by omega
    rw [chunkFrom_of_le text c o 0 start hs, chunkFrom_of_le text c o fuel₂ start hs]
  | succ n ih =>
    intro fuel₂ start h₁ h₂
    by_cases hlt : start < text.length
    · have hstep := slideStep_pos c o
      cases fuel₂ with
      | zero => omega
      | succ k =>
        simp only [chunkFrom, hlt, if_true]
        rw [ih k (start + slideStep c o) (by omega) (by omega)]
    · have hs : text.length ≤ start := Nat.not_lt.mp hlt
      rw [chunkFrom_of_le text c o _ start hs, chunkFrom_of_le text c o fuel₂ start hs]

theorem chunkFrom_eq_ref (text : List Char) (c o : Nat) :
    ∀ fuel start, text.length - start ≤ fuel →
      chunkFrom text c o fuel start =
        (List.range ((text.length - start + slideStep c o - 1) / slideStep c o)).map
          (fun k => (text.drop (start + k * slideStep c o)).take c) := by
  intro fuel
  induction fuel with
  | zero =>
    intro start h
    have hz : text.length - start = 0 := by omega
    rw [chunkFrom_of_le text c o 0 start (by omega), hz]
    have : (0 + slideStep c o - 1) / slideStep c o = 0 :=
      Nat.div_eq_of_lt (by have := slideStep_pos c o; omega)
    rw [this]
    simp
  | succ n ih =>
    intro start h
    have hstep := slideStep_pos c o
    by_cases hlt : start < text.length
    · simp only [chunkFrom, hlt, if_true]
      rw [ih (start + slideStep c o) (by omega)]
      -- turn the count on the right into a successor
      set s := slideStep c o with hs
      have ha : 1 ≤ text.length - start := by omega
      have hcount : (text.length - start + s - 1) / s
          = (text.length - (start + s) + s - 1) / s + 1 := by
        have h1 : text.length - start + s - 1 = (text.length - start - 1) + s := by omega
        rw [h1, Nat.add_div_right _ (by omega)]
        congr 1
        by_cases hss : s ≤ text.length - start
        · have : text.length - (start + s) + s - 1 = text.length - start - 1 := by omega
          rw [this]
        · have h0 : text.length - (start + s) = 0 := by omega
          rw [h0]
          rw [Nat.div_eq_of_lt (by omega), Nat.div_eq_of_lt (by omega)]
      rw [hcount, List.range_succ_eq_map, List.map_cons]
      simp only [Nat.zero_mul, Nat.add_zero, List.map_map]
      congr 1
      apply List.map_congr_left
      intro k _
      simp only [Function.comp]
      congr 2
      rw [Nat.succ_mul]
      ring
    · have hs : text.length ≤ start := Nat.not_lt.mp hlt
      rw [chunkFrom_of_le text c o _ start hs]
      have hz : text.length - start = 0 := by omega
      rw [hz]
      have : (0 + slideStep c o - 1) / slideStep c o = 0 :=
        Nat.div_eq_of_lt (by have := slideStep_pos c o; omega)
      rw [this]
      simp

theorem chunk_text_eq_ref (text : List Char) (c o : Nat) :
    chunk_text text c o = refChunkText text c o := by
  unfold chunk_text refChunkText
  by_cases he : text.isEmpty
  · have hlen : text.length = 0 := by
      cases text with
      | nil => rfl
      | cons a l => simp [List.isEmpty] at he
    simp only [he, if_true, hlen]
    have : (0 + max (c - o) 1 - 1) / max (c - o) 1 = 0 :=
      Nat.div_eq_of_lt (by have : 1 ≤ max (c - o) 1 := le_max_right _ _; omega)
    rw [this]
    simp
  · simp only [he, if_false]
    rw [chunkFrom_eq_ref text c o text.length 0 (by omega)]
    simp [slideStep]

/-! ## Reconstruction of the text from the windows

`joinWindows step chunks` concatenates the non-overlapping portion
(the first `step` characters) of every chunk except the last, followed
by the whole last chunk. -/

def joinWindows (step : Nat) : List (List Char) → List Char
  | [] => []
  | [c] => c
  | c :: c2 :: rest => c.take step ++ joinWindows step (c2 :: rest)

theorem joinWindows_cons_of_ne_nil (step : Nat) (a : List Char) (l : List (List Char))
    (h : l ≠ []) : joinWindows step (a :: l) = a.take step ++ joinWindows step l := by
  cases l with
  | nil => exact absurd rfl h
  | cons b t => rfl

theorem getLast?_cons_ne_nil {α : Type} (a : α) (l : List α) (h : l ≠ []) :
    (a :: l).getLast? = l.getLast? := by
  cases l with
  | nil => exact absurd rfl h
  | cons b t => exact List.getLast?_cons_cons

theorem chunkFrom_ne_nil (text : List Char) (c o : Nat) (fuel start : Nat)
    (hfuel : 1 ≤ fuel) (hlt : start < text.length) :
    chunkFrom text c o fuel start ≠ [] := by
  cases fuel with
  | zero => omega
  | succ n => simp [chunkFrom, hlt]

theorem chunkFrom_reconstruct (text : List Char) (c o : Nat) (h : o < c) :
    ∀ fuel start, text.length - start ≤ fuel → start < text.length →
      joinWindows (slideStep c o) (chunkFrom text c o fuel start) = text.drop start := by
  have hsle : slideStep c o ≤ c := by
    unfold slideStep
    omega
  intro fuel
  induction fuel with
  | zero => intro start h₁ h₂; omega
  | succ n ih =>
    intro start h₁ h₂
    have hstep := slideStep_pos c o
    simp only [chunkFrom, h₂, if_true]
    by_cases hnext : start + slideStep c o < text.length
    · have hne : chunkFrom text c o n (start + slideStep c o) ≠ [] :=
        chunkFrom_ne_nil text c o n _ (by omega) hnext
      rw [joinWindows_cons_of_ne_nil _ _ _ hne, ih (start + slideStep c o) (by omega) hnext]
      rw [List.take_take]
      have hmin : min (slideStep c o) c = slideStep c o := Nat.min_eq_left hsle
      rw [hmin]
      have hdd : text.drop (start + slideStep c o) = (text.drop start).drop (slideStep c o) := by
        rw [List.drop_drop]
      rw [hdd, List.take_append_drop]
    · have hnil : chunkFrom text c o n (start + slideStep c o) = [] :=
        chunkFrom_of_le text c o n _ (by omega)
      rw [hnil]
      show (text.drop start).take c = text.drop start
      apply List.take_of_length_le
      rw [List.length_drop]
      omega

theorem chunkFrom_getLast (text : List Char) (c o : Nat) (h : o < c) :
    ∀ fuel start, text.length - start ≤ fuel → start < text.length →
      ∃ s, start ≤ s ∧ s < text.length ∧ text.length ≤ s + c ∧
        (chunkFrom text c o fuel start).getLast? = some ((text.drop s).take c) := by
  have hsle : slideStep c o ≤ c := by
    unfold slideStep
    omega
  intro fuel
  induction fuel with
  | zero => intro start h₁ h₂; omega
  | succ n ih =>
    intro start h₁ h₂
    have hstep := slideStep_pos c o
    simp only [chunkFrom, h₂, if_true]
    by_cases hnext : start + slideStep c o < text.length
    · obtain ⟨s, hs1, hs2, hs3, hs4⟩ := ih (start + slideStep c o) (by omega) hnext
      refine ⟨s, by omega, hs2, hs3, ?_⟩
      have hne : chunkFrom text c o n (start + slideStep c o) ≠ [] :=
        chunkFrom_ne_nil text c o n _ (by omega) hnext
      rw [getLast?_cons_ne_nil _ _ hne]
      exact hs4
    · have hnil : chunkFrom text c o n (start + slideStep c o) = [] :=
        chunkFrom_of_le text c o n _ (by omega)
      rw [hnil]
      exact ⟨start, le_refl _, h₂, by omega, rfl⟩

theorem chunk_text_length (text : List Char) (c o : Nat) :
    (chunk_text text c o).length =
      (text.length + slideStep c o - 1) / slideStep c o := by
  rw [chunk_text_eq_ref]
  unfold refChunkText slideStep
  simp

/-! ## Ollama client (`query_ollama`, main.py lines 159-240)

The network is abstracted as an oracle `net : String → String →
GenOutcome` giving, for a prompt and a model name, the outcome of the
POST to `/api/generate`:
* `success resp`   – status 200, JSON body with a `response` field;
* `badFormat data` – status 200, JSON body without a `response` field;
* `httpError status body` – non-200 status, with `body` describing the
  error payload (`errorKey e`: JSON with an `error` field; `noErrorKey`:
  JSON without one; `parseFail text`: non-JSON body of the given text);
* `connError`      – `requests.exceptions.ConnectionError`;
* `timeoutErr`     – `requests.exceptions.Timeout`.
The `/api/tags` listing is likewise abstracted as a `TagsResult`. -/

inductive ErrBody where
  | errorKey (e : String)
  | noErrorKey
  | parseFail (text : String)
deriving DecidableEq

inductive GenOutcome where
  | success (resp : String)
  | badFormat (data : String)
  | httpError (status : Nat) (body : ErrBody)
  | connError
  | timeoutErr
deriving DecidableEq

inductive TagsResult where
  | response (status : Nat) (models : List (Option String))
  | failure
deriving DecidableEq

inductive QueryResult where
  | ok (answer : String)
  | error (msg : String)
deriving DecidableEq

def DEFAULT_MODEL : String := "llama3.2:1b"

def FALLBACK_MODELS : List String :=
  ["llama3.2:1b", "llama3.2", "llama3:1b", "tinyllama", "phi"]

/-- `get_available_models` (main.py lines 141-156): `[]` unless the tags
endpoint answers 200; each entry contributes `m.get("name", "")`. -/
def get_available_models : TagsResult → List String
  | .response status models =>
      if status ≠ 200 then [] else models.map (fun m => m.getD "")
  | .failure => []

def connErrorMsg : String :=
  "Cannot connect to Ollama. Is Ollama running? Start it with: ollama serve"

def timeoutErrorMsg : String :=
  "Ollama request timed out. The model might be too slow or not responding."

def statusMsgBase (status : Nat) : String := "Ollama returned status " ++ toString status

/-- The memory/buffer classification of main.py line 209 and line 442:
case-insensitive substring test for "unable to allocate" or "buffer". -/
def isMemoryError (msg : String) : Bool :=
  pyIn "unable to allocate" (pyLower msg) || pyIn "buffer" (pyLower msg)

/-- Python's f-string rendering of an `Optional[str]`. -/
def pyOptStr : Option String → String
  | none => "None"
  | some s => s

/-- The composite error raised after all candidates fail
(main.py lines 229-240). -/
def allModelsFailedMsg (lastError : Option String) (available : List String) : String :=
  "All models failed. Last error: " ++ pyOptStr lastError ++ "\n\nTry:\n" ++
  "1. Restart Ollama: Close and run \x27ollama serve\x27 again\n" ++
  "2. Free up RAM: Close other applications\n" ++
  (if available.isEmpty then
    "3. Install a smaller model: \x27ollama pull tinyllama\x27\n"
  else
    "3. Available models: " ++ String.intercalate ", " (available.take 5) ++ "\n")

inductive LoopOutcome where
  | returned (answer : String)
  | raised (msg : String)
  | exhausted (lastError : Option String)
deriving DecidableEq

inductive StepAction where
  | halt (out : LoopOutcome)
  | next (lastError : Option String)
deriving DecidableEq

/-- One iteration of the fallback loop body (main.py lines 179-227):
given the outcome of the generation request for the current candidate,
whether the candidate equals `models_to_try[-1]` (`isLast`), and the
current `last_error`, either halt the loop (return / raise) or continue
with an updated `last_error`.  Mirrors the nested try/except:
* 200 with `response` field: return it;
* 200 without it: `Exception` caught by the generic handler — raise
  `"Ollama error: ..."` if last, else record the message and continue;
* non-200: build `error_msg` (and update `last_error`) from the body,
  continue if the memory/buffer test matches, else generic handler;
* `ConnectionError`: raise the fatal connect message immediately;
* `Timeout`: continue unless the candidate equals the last one. -/
def loopStep (outcome : GenOutcome) (isLast : Bool) (lastError : Option String) :
    StepAction :=
  match outcome with
  | .success resp => .halt (.returned resp)
  | .badFormat data =>
    let msg := "Unexpected Ollama response format: " ++ data
    if isLast then .halt (.raised ("Ollama error: " ++ msg)) else .next (some msg)
  | .httpError status body =>
    let base := statusMsgBase status
    match body with
    | .errorKey e =>
      let errorMsg := base ++ ": " ++ e
      if isMemoryError errorMsg then .next (some e)
      else if isLast then .halt (.raised ("Ollama error: " ++ errorMsg))
      else .next (some errorMsg)
    | .noErrorKey =>
      if isMemoryError base then .next lastError
      else if isLast then .halt (.raised ("Ollama error: " ++ base))
      else .next (some base)
    | .parseFail text =>
      let errorMsg := base ++ ": " ++ text.take 200
      if isMemoryError errorMsg then .next (some errorMsg)
      else if isLast then .halt (.raised ("Ollama error: " ++ errorMsg))
      else .next (some errorMsg)
  | .connError => .halt (.raised connErrorMsg)
  | .timeoutErr =>
    if isLast then .halt (.raised timeoutErrorMsg) else .next lastError

/-- The `for attempt_model in models_to_try` loop.  Returns the loop
outcome together with the list of candidates actually contacted, in
order. -/
def queryLoop (net : String → String → GenOutcome) (prompt lastModel : String) :
    List String → Option String → LoopOutcome × List String
  | [], lastError => (.exhausted lastError, [])
  | m :: rest, lastError =>
    match loopStep (net prompt m) (m == lastModel) lastError with
    | .halt out => (out, [m])
    | .next le =>
      let r := queryLoop net prompt lastModel rest le
      (r.1, m :: r.2)

/-- `models_to_try` (main.py line 175): the requested model first, then
the fallbacks different from it, in order. -/
def build_candidates (model : String) (fallback_models : List String) : List String :=
  model :: fallback_models.filter (fun m => m != model)

/-- `query_ollama` (main.py lines 159-240), for an explicit fallback
list (`fallback_models = None` in Python means `FALLBACK_MODELS`).
Returns the result (`ok answer` for a normal return, `error msg` for a
raised exception, with `msg` the exception text) together with the list
of candidates contacted. -/
def query_ollama (net : String → String → GenOutcome) (tags : TagsResult)
    (prompt model : String) (fallback_models : List String) :
    QueryResult × List String :=
  let models_to_try := build_candidates model fallback_models
  match queryLoop net prompt (models_to_try.getLastD "") models_to_try none with
  | (.returned a, c) => (.ok a, c)
  | (.raised msg, c) => (.error msg, c)
  | (.exhausted lastError, c) =>
      (.error (allModelsFailedMsg lastError (get_available_models tags)), c)

/-! ### Generic lemmas about the fallback loop -/

theorem queryLoop_contacted_ne_nil (net : String → String → GenOutcome)
    (prompt lastModel : String) (m : String) (rest : List String)
    (le : Option String) :
    (queryLoop net prompt lastModel (m :: rest) le).2 ≠ [] := by
  simp only [queryLoop]
  cases loopStep (net prompt m) (m == lastModel) le with
  | halt out => simp
  | next le' => simp

theorem mem_of_getLast?_eq {α : Type} {l : List α} {a : α}
    (h : l.getLast? = some a) : a ∈ l := by
  cases l with
  | nil => simp at h
  | cons b t =>
    have hne : b :: t ≠ [] := by simp
    rw [List.getLast?_eq_getLast_of_ne_nil hne] at h
    have := List.getLast_mem hne
    rwa [Option.some_inj.mp h] at this

/-- If a candidate `m` was contacted and its request outcome always
makes the loop body halt with outcome `out` (regardless of `last_error`),
then the loop's result is `out` and `m` is the last contacted candidate. -/
theorem queryLoop_halt_at (net : String → String → GenOutcome)
    (prompt lastModel : String) (m : String) (out : LoopOutcome)
    (hhalt : ∀ le, loopStep (net prompt m) (m == lastModel) le = .halt out) :
    ∀ ms le, m ∈ (queryLoop net prompt lastModel ms le).2 →
      (queryLoop net prompt lastModel ms le).1 = out ∧
      (queryLoop net prompt lastModel ms le).2.getLast? = some m := by
  intro ms
  induction ms with
  | nil => intro le hm; simp [queryLoop] at hm
  | cons m' rest ih =>
    intro le hm
    simp only [queryLoop] at hm ⊢
    cases hstep : loopStep (net prompt m') (m' == lastModel) le with
    | halt o =>
      rw [hstep] at hm
      simp at hm
      subst hm
      have h2 := hhalt le
      rw [hstep] at h2
      injection h2 with h2
      subst h2
      exact ⟨rfl, rfl⟩
    | next le' =>
      rw [hstep] at hm
      simp only at hm
      rcases List.mem_cons.mp hm with heq | hmem
      · subst heq
        rw [hhalt le] at hstep
        simp at hstep
      · obtain ⟨h1, h2⟩ := ih le' hmem
        refine ⟨h1, ?_⟩
        have hne : (queryLoop net prompt lastModel rest le').2 ≠ [] := by
          intro hnil
          rw [hnil] at hmem
          simp at hmem
        rw [getLast?_cons_ne_nil _ _ hne]
        exact h2

/-- If a candidate `m` was contacted, its request outcome always makes
the loop body continue, and `m` is not the value at the final position
of the candidate list, then `m` is not the last contacted candidate
(i.e. a further candidate was contacted after it). -/
theorem queryLoop_cont_at (net : String → String → GenOutcome)
    (prompt lastModel : String) (m : String)
    (hnext : ∀ le, ∃ le', loopStep (net prompt m) (m == lastModel) le = .next le') :
    ∀ ms le, ms.getLast? ≠ some m → m ∈ (queryLoop net prompt lastModel ms le).2 →
      (queryLoop net prompt lastModel ms le).2.getLast? ≠ some m := by
  intro ms
  induction ms with
  | nil => intro le _ hm; simp [queryLoop] at hm
  | cons m' rest ih =>
    intro le hlast hm
    simp only [queryLoop] at hm ⊢
    cases hstep : loopStep (net prompt m') (m' == lastModel) le with
    | halt o =>
      rw [hstep] at hm
      simp at hm
      subst hm
      obtain ⟨le', hle'⟩ := hnext le
      rw [hle'] at hstep
      simp at hstep
    | next le' =>
      rw [hstep] at hm
      simp only at hm
      have hrest_ne : rest ≠ [] := by
        intro hnil
        subst hnil
        rcases List.mem_cons.mp hm with heq | hmem
        · subst heq
          simp at hlast
        · simp [queryLoop] at hmem
      have hlast_rest : rest.getLast? ≠ some m := by
        rw [getLast?_cons_ne_nil _ _ hrest_ne] at hlast
        exact hlast
      have hcont_ne : (queryLoop net prompt lastModel rest le').2 ≠ [] := by
        cases rest with
        | nil => exact absurd rfl hrest_ne
        | cons a t => exact queryLoop_contacted_ne_nil net prompt lastModel a t le'
      rw [getLast?_cons_ne_nil _ _ hcont_ne]
      rcases List.mem_cons.mp hm with heq | hmem
      · subst heq
        intro hcontra
        have hmem' : m ∈ (queryLoop net prompt lastModel rest le').2 :=
          mem_of_getLast?_eq hcontra
        exact ih le' hlast_rest hmem' hcontra
      · exact ih le' hlast_rest hmem

/-- If every candidate's outcome makes the loop body continue with
`last_error` updated to `some (er m)` (as the memory/buffer
classification of an `error`-carrying non-200 response does), the loop
exhausts the whole list and the final `last_error` is that of the last
candidate. -/
theorem queryLoop_exhaust (net : String → String → GenOutcome)
    (prompt lastModel : String) (er : String → String) :
    ∀ ms le, (∀ m ∈ ms, ∀ le', loopStep (net prompt m) (m == lastModel) le' = .next (some (er m))) →
      queryLoop net prompt lastModel ms le =
        (.exhausted (match ms.getLast? with
          | some ml => some (er ml)
          | none => le), ms) := by
  intro ms
  induction ms with
  | nil => intro le _; rfl
  | cons m' rest ih =>
    intro le hall
    simp only [queryLoop]
    rw [hall m' (by simp) le]
    simp only
    rw [ih (some (er m')) (fun m hm le' => hall m (List.mem_cons_of_mem _ hm) le')]
    cases hrest : rest with
    | nil => simp
    | cons a t =>
      have hne : rest ≠ [] := by rw [hrest]; simp
      rw [← hrest, getLast?_cons_ne_nil _ _ hne]
      have : rest.getLast? = some (rest.getLast (by rw [hrest]; simp)) :=
        List.getLast?_eq_getLast_of_ne_nil hne
      rw [this]

/-! ## Question answering (`ask_question`, main.py lines 395-478)

The ChromaDB query result is modelled by `RetrievalResult`:
`documents` and `metadatas` are the values of `results.get(...)`
(`none` when the key is absent / `None`).  Each metadata dict is a
`Meta` whose fields model `meta.get("source", ...)` /
`meta.get("chunk", ...)`. -/

structure Meta where
  source : Option String
  chunk : Option Nat
deriving DecidableEq

structure RetrievalResult where
  documents : Option (List (List String))
  metadatas : Option (List (List Meta))
deriving DecidableEq

/-- The prompt template of main.py lines 425-433 (note the trailing
space after "context." on the first line). -/
def buildPrompt (context question : String) : String :=
  "You are a helpful study assistant. Answer the question based on the provided context. \n" ++
  "If the answer is not in the context, say so clearly.\n\nContext:\n" ++ context ++
  "\n\nQuestion: " ++ question ++ "\n\nAnswer:"

/-- The memory-specific remediation checklist (main.py lines 443-450). -/
def memoryChecklist (errorMsg : String) : String :=
  "⚠️ Memory Error: " ++ errorMsg ++ "\n\nQuick fixes:\n" ++
  "1. Restart Ollama: Close terminal running \x27ollama serve\x27, then run it again\n" ++
  "2. Free up RAM: Close other applications\n" ++
  "3. Try a smaller model: Run \x27ollama pull tinyllama\x27 then restart\n" ++
  "4. Check available models: Visit http://localhost:8000/models"

/-- The generic remediation checklist (main.py lines 452-456). -/
def genericChecklist (errorMsg : String) : String :=
  "⚠️ Error: " ++ errorMsg ++ "\n\nPlease check:\n" ++
  "1. Is Ollama running? (Run \x27ollama serve\x27 in terminal)\n" ++
  "2. Is a model installed? (Run \x27ollama pull llama3.2:1b\x27 or \x27ollama pull tinyllama\x27)"

def noDocumentsMsg : String := "No documents found. Please upload documents first."

/-- `ask_question` (main.py lines 395-478) for a given retrieval result.
Returns `(answer, sources, contacted)` where `contacted` is the list of
models the fallback client contacted (empty when it was never
invoked). -/
def ask_question (net : String → String → GenOutcome) (tags : TagsResult)
    (results : RetrievalResult) (question : String) :
    String × List (String × Nat) × List String :=
  let documents := results.documents.getD []
  if documents.isEmpty || (documents.headD []).isEmpty then
    (noDocumentsMsg, [], [])
  else
    let context := String.intercalate "\n\n" (documents.headD [])
    let prompt := buildPrompt context question
    match query_ollama net tags prompt DEFAULT_MODEL FALLBACK_MODELS with
    | (QueryResult.error msg, contacted) =>
        (if isMemoryError msg then memoryChecklist msg else genericChecklist msg,
          [], contacted)
    | (QueryResult.ok answer, contacted) =>
        let metadatas := results.metadatas.getD []
        let sources :=
          if !metadatas.isEmpty && !(metadatas.headD []).isEmpty then
            (metadatas.headD []).map
              (fun meta => (meta.source.getD "Unknown", meta.chunk.getD 0))
          else []
        (answer, sources, contacted)

/-! ## Vector store (`upload_document` ids/metadata, main.py lines 371-379,
`clear_database`, main.py lines 488-505) -/

structure StoreEntry where
  id : String
  source : String
  index : Nat
  text : List Char
deriving DecidableEq

/-- The chunk records built by `upload_document` (main.py lines 371-372):
ids `f"{filename}_{i}"` and metadata `{"source": filename, "chunk": i}`
for `i in range(len(chunks))`. -/
def uploadEntries (filename : String) (chunks : List (List Char)) : List StoreEntry :=
  chunks.enum.map (fun p => ⟨filename ++ "_" ++ toString p.1, filename, p.1, p.2⟩)

/-- Modelled from the spec: `upsert` of the external vector-store engine
(ChromaDB, a collaborator whose code is not part of this repository).
Per §4.2 each chunk is stored under its deterministic id; the engine
keeps at most one entry per id, so storing under an existing id
replaces that entry. -/
def upsertBatch (store : List StoreEntry) (batch : List StoreEntry) : List StoreEntry :=
  batch.foldl (fun st e => st.filter (fun x => x.id != e.id) ++ [e]) store

inductive StoreOp where
  | upload (filename : String) (text : List Char)
  | clear

/-- One ingestion (`/upload`, with the default chunking parameters
1000/200 of `chunk_text`) or clear (`/clear`, which empties the
collection) operation applied to the store contents. -/
def applyOp (store : List StoreEntry) : StoreOp → List StoreEntry
  | .upload filename text => upsertBatch store (uploadEntries filename (chunk_text text 1000 200))
  | .clear => []

def runOps (ops : List StoreOp) : List StoreEntry := ops.foldl applyOp []

/-- Modelled from the spec: `query` of the external vector-store engine
(§4.2) returns the texts and metadata of the engine-chosen ranked
chunks, drawn from the store; when the store holds no chunks the
retrieved list is empty (an empty result, not an error).  The result is
shaped like ChromaDB's reply: one inner list per query text. -/
def storeQuery (retrieved : List StoreEntry) : RetrievalResult :=
  { documents := some [retrieved.map (fun e => String.mk e.text)],
    metadatas := some [retrieved.map (fun e => ⟨some e.source, some e.index⟩)] }

/-! ### Store invariants -/

def WellFormedStore (store : List StoreEntry) : Prop :=
  (∀ e ∈ store, e.id = e.source ++ "_" ++ toString e.index) ∧
  store.Pairwise (fun a b => a.id ≠ b.id)

theorem uploadEntries_format (filename : String) (chunks : List (List Char)) :
    ∀ e ∈ uploadEntries filename chunks, e.id = e.source ++ "_" ++ toString e.index := by
  intro e he
  unfold uploadEntries at he
  obtain ⟨p, _, hp⟩ := List.mem_map.mp he
  rw [← hp]

theorem uploadEntries_ids (filename : String) (chunks : List (List Char)) :
    (uploadEntries filename chunks).map StoreEntry.id =
      (List.range chunks.length).map (fun i => filename ++ "_" ++ toString i) := by
  unfold uploadEntries
  rw [List.map_map]
  rw [show (StoreEntry.id ∘ fun p : Nat × List Char =>
      (⟨filename ++ "_" ++ toString p.1, filename, p.1, p.2⟩ : StoreEntry)) =
      ((fun i => filename ++ "_" ++ toString i) ∘ Prod.fst) from rfl]
  rw [← List.map_map, List.enum_map_fst]

theorem upsertOne_wf (store : List StoreEntry) (e : StoreEntry)
    (hw : WellFormedStore store) (he : e.id = e.source ++ "_" ++ toString e.index) :
    WellFormedStore (store.filter (fun x => x.id != e.id) ++ [e]) := by
  constructor
  · intro a ha
    rcases List.mem_append.mp ha with h | h
    · exact hw.1 a (List.mem_of_mem_filter h)
    · simp at h
      subst h
      exact he
  · rw [List.pairwise_append]
    refine ⟨hw.2.sublist (List.filter_sublist _), by simp, ?_⟩
    intro a ha b hb
    simp at hb
    subst hb
    have hcond := List.of_mem_filter ha
    simpa using hcond

theorem upsertBatch_wf (batch : List StoreEntry) :
    ∀ store, WellFormedStore store →
      (∀ e ∈ batch, e.id = e.source ++ "_" ++ toString e.index) →
      WellFormedStore (upsertBatch store batch) := by
  induction batch with
  | nil => intro store hw _; exact hw
  | cons e t ih =>
    intro store hw hb
    exact ih _ (upsertOne_wf store e hw (hb e (by simp)))
      (fun x hx => hb x (by simp [hx]))

theorem wellFormedStore_nil : WellFormedStore [] :=
  ⟨fun e he => absurd he (List.not_mem_nil e), List.Pairwise.nil⟩

theorem foldl_applyOp_wf : ∀ (ops : List StoreOp) (store : List StoreEntry),
    WellFormedStore store → WellFormedStore (ops.foldl applyOp store) := by
  intro ops
  induction ops with
  | nil => intro store hw; exact hw
  | cons op t ih =>
    intro store hw
    apply ih
    cases op with
    | upload filename text =>
      exact upsertBatch_wf _ store hw (uploadEntries_format filename _)
    | clear => exact wellFormedStore_nil

theorem runOps_wf (ops : List StoreOp) : WellFormedStore (runOps ops) :=
  foldl_applyOp_wf ops [] wellFormedStore_nil

/-! ### Bridging `query_ollama` and `queryLoop` -/

/-- How `query_ollama` converts the loop outcome into its result. -/
def qres (out : LoopOutcome) (tags : TagsResult) : QueryResult :=
  match out with
  | .returned a => .ok a
  | .raised msg => .error msg
  | .exhausted le => .error (allModelsFailedMsg le (get_available_models tags))

theorem query_ollama_eq (net : String → String → GenOutcome) (tags : TagsResult)
    (prompt model : String) (fbs : List String) :
    query_ollama net tags prompt model fbs =
      (qres (queryLoop net prompt ((build_candidates model fbs).getLastD "")
          (build_candidates model fbs) none).1 tags,
        (queryLoop net prompt ((build_candidates model fbs).getLastD "")
          (build_candidates model fbs) none).2) := by
  rcases h : queryLoop net prompt ((build_candidates model fbs).getLastD "")
      (build_candidates model fbs) none with ⟨out, c⟩
  simp only [query_ollama]
  rw [h]
  cases out <;> rfl

theorem getLast?_eq_getLastD {α : Type} (l : List α) (d : α) (h : l ≠ []) :
    l.getLast? = some (l.getLastD d) := by
  rw [List.getLastD_eq_getLast?, List.getLast?_eq_getLast_of_ne_nil h]
  rfl

/-! ## Claim theorems -/

/-- Claim C1: for every text, chunk_size and overlap, `chunk_text`
returns exactly the chunks of the reference sliding window
(`refChunkText`): starting at offset 0 it emits
`text[start : start + chunk_size]`, advances `start` by
`max (chunk_size - overlap, 1)` — an advance of at least one character,
so the loop terminates even when `overlap ≥ chunk_size` — and repeats
while `start < len(text)`; the empty input yields the empty sequence
(the last chunk is whatever the final slice yields, with no padding). -/
theorem chunk_text_matches_reference_window (text : List Char) (chunk_size overlap : Nat) :
    chunk_text text chunk_size overlap = refChunkText text chunk_size overlap ∧
    chunk_text [] chunk_size overlap = [] ∧
    1 ≤ slideStep chunk_size overlap :=
  ⟨chunk_text_eq_ref text chunk_size overlap, rfl, slideStep_pos _ _⟩

/-- Claim C4: the candidate list built by `query_ollama` is the
requested model followed by the fallback entries different from it, in
order; the requested model appears exactly once, as the first element,
even when it also occurs in the fallback list. -/
theorem candidate_list_dedup (model : String) (fallback_models : List String) :
    build_candidates model fallback_models =
      [model] ++ fallback_models.filter (fun m => m != model) ∧
    (build_candidates model fallback_models).head? = some model ∧
    (build_candidates model fallback_models).count model = 1 := by
  refine ⟨rfl, rfl, ?_⟩
  unfold build_candidates
  rw [List.count_cons_self]
  have hz : (fallback_models.filter (fun m => m != model)).count model = 0 := by
    rw [List.count_eq_zero]
    intro hmem
    have := List.of_mem_filter hmem
    simp at this
  rw [hz]

/-- Claim C2: if a contacted candidate's generation request fails with
an explicit connectivity failure (`ConnectionError`), `query_ollama`
aborts the whole operation with the fatal "server not running" error
and contacts no further candidate (the connectivity-failing candidate
is the last one contacted). -/
theorem connection_error_aborts (net : String → String → GenOutcome) (tags : TagsResult)
    (prompt model : String) (fallback_models : List String) (m : String)
    (hm : m ∈ (query_ollama net tags prompt model fallback_models).2)
    (hconn : net prompt m = GenOutcome.connError) :
    (query_ollama net tags prompt model fallback_models).1 =
      QueryResult.error connErrorMsg ∧
    (query_ollama net tags prompt model fallback_models).2.getLast? = some m := by
  rw [query_ollama_eq] at hm ⊢
  simp only at hm ⊢
  have hhalt : ∀ le, loopStep (net prompt m)
      (m == (build_candidates model fallback_models).getLastD "") le =
      StepAction.halt (.raised connErrorMsg) := by
    intro le
    rw [hconn]
    rfl
  obtain ⟨h1, h2⟩ := queryLoop_halt_at net prompt
    ((build_candidates model fallback_models).getLastD "") m (.raised connErrorMsg) hhalt
    (build_candidates model fallback_models) none hm
  rw [h1]
  exact ⟨rfl, h2⟩

/-- Witness for C2 at a concrete input: a network refusing all
connections makes `query_ollama` contact only the first candidate and
raise the fatal connect error. -/
theorem connection_error_aborts_witness :
    "b" ∈ (query_ollama (fun _ _ => GenOutcome.connError)
        TagsResult.failure "p" "b" ["a"]).2 ∧
    (query_ollama (fun _ _ => GenOutcome.connError)
        TagsResult.failure "p" "b" ["a"]).1 = QueryResult.error connErrorMsg ∧
    (query_ollama (fun _ _ => GenOutcome.connError)
        TagsResult.failure "p" "b" ["a"]).2.getLast? = some "b" :=
  ⟨by decide,
    (connection_error_aborts (fun _ _ => GenOutcome.connError)
      TagsResult.failure "p" "b" ["a"] "b" (by decide) rfl).1,
    (connection_error_aborts (fun _ _ => GenOutcome.connError)
      TagsResult.failure "p" "b" ["a"] "b" (by decide) rfl).2⟩

/-- Counterexample to claim C3 as stated: the code decides "was this
the last candidate" by comparing the candidate's *value* with
`models_to_try[-1]`, not by its position.  With requested model "b" and
fallback list ["a", "a"], the candidate list is ["b", "a", "a"]; when
every request times out, the loop raises the timeout error at the
second candidate (value "a" equals the last element) although a third
candidate remains untried: only ["b", "a"] are contacted. -/
theorem timeout_positional_counterexample :
    query_ollama (fun _ _ => GenOutcome.timeoutErr) TagsResult.failure "p" "b" ["a", "a"] =
      (QueryResult.error timeoutErrorMsg, ["b", "a"]) ∧
    build_candidates "b" ["a", "a"] = ["b", "a", "a"] := by
  constructor
  · decide
  · decide

/-- Claim C3 (amended): a success response on any contacted candidate
is returned immediately, with no later candidate contacted.  A timeout
on a contacted candidate whose name *equals the last element* of the
candidate list makes `query_ollama` fail with the timeout error there;
a timeout on a candidate whose name differs from the last element makes
the loop continue (the candidate is not the last one contacted).  For
candidate lists without duplicate values this coincides with the
position-based reading of the claim. -/
theorem timeout_and_success_policy (net : String → String → GenOutcome) (tags : TagsResult)
    (prompt model : String) (fallback_models : List String) :
    (∀ m r, m ∈ (query_ollama net tags prompt model fallback_models).2 →
      net prompt m = GenOutcome.success r →
      (query_ollama net tags prompt model fallback_models).1 = QueryResult.ok r ∧
      (query_ollama net tags prompt model fallback_models).2.getLast? = some m) ∧
    (∀ m, m ∈ (query_ollama net tags prompt model fallback_models).2 →
      net prompt m = GenOutcome.timeoutErr →
      m = (build_candidates model fallback_models).getLastD "" →
      (query_ollama net tags prompt model fallback_models).1 =
        QueryResult.error timeoutErrorMsg ∧
      (query_ollama net tags prompt model fallback_models).2.getLast? = some m) ∧
    (∀ m, m ∈ (query_ollama net tags prompt model fallback_models).2 →
      net prompt m = GenOutcome.timeoutErr →
      m ≠ (build_candidates model fallback_models).getLastD "" →
      (query_ollama net tags prompt model fallback_models).2.getLast? ≠ some m) := by
  refine ⟨?_, ?_, ?_⟩
  · intro m r hm hsucc
    rw [query_ollama_eq] at hm ⊢
    simp only at hm ⊢
    have hhalt : ∀ le, loopStep (net prompt m)
        (m == (build_candidates model fallback_models).getLastD "") le =
        StepAction.halt (.returned r) := by
      intro le
      rw [hsucc]
      rfl
    obtain ⟨h1, h2⟩ := queryLoop_halt_at net prompt
      ((build_candidates model fallback_models).getLastD "") m (.returned r) hhalt
      (build_candidates model fallback_models) none hm
    rw [h1]
    exact ⟨rfl, h2⟩
  · intro m hm htime hlastv
    rw [query_ollama_eq] at hm ⊢
    simp only at hm ⊢
    have hbeq : (m == (build_candidates model fallback_models).getLastD "") = true := by
      rw [hlastv]
      simp
    have hhalt : ∀ le, loopStep (net prompt m)
        (m == (build_candidates model fallback_models).getLastD "") le =
        StepAction.halt (.raised timeoutErrorMsg) := by
      intro le
      rw [htime, hbeq]
      rfl
    obtain ⟨h1, h2⟩ := queryLoop_halt_at net prompt
      ((build_candidates model fallback_models).getLastD "") m (.raised timeoutErrorMsg) hhalt
      (build_candidates model fallback_models) none hm
    rw [h1]
    exact ⟨rfl, h2⟩
  · intro m hm htime hlastv
    rw [query_ollama_eq] at hm ⊢
    simp only at hm ⊢
    have hbeq : (m == (build_candidates model fallback_models).getLastD "") = false := by
      rw [beq_eq_false_iff_ne]
      exact hlastv
    have hnext : ∀ le, ∃ le', loopStep (net prompt m)
        (m == (build_candidates model fallback_models).getLastD "") le =
        StepAction.next le' := by
      intro le
      rw [htime, hbeq]
      exact ⟨le, rfl⟩
    apply queryLoop_cont_at net prompt
      ((build_candidates model fallback_models).getLastD "") m hnext
      (build_candidates model fallback_models) none ?_ hm
    rw [getLast?_eq_getLastD _ "" (by unfold build_candidates; simp)]
    intro hcontra
    exact hlastv (Option.some_inj.mp hcontra).symm

/-- Witness for C3 (amended) at a concrete input: with candidates
["b", "a"], a timeout on "b" (not the last value) followed by a success
on "a" returns the success and leaves "a", not "b", as the last
contacted candidate. -/
theorem timeout_and_success_policy_witness :
    (query_ollama (fun _ m => if m == "a" then GenOutcome.success "ok" else GenOutcome.timeoutErr)
        TagsResult.failure "p" "b" ["a"]).1 = QueryResult.ok "ok" ∧
    (query_ollama (fun _ m => if m == "a" then GenOutcome.success "ok" else GenOutcome.timeoutErr)
        TagsResult.failure "p" "b" ["a"]).2.getLast? = some "a" ∧
    (query_ollama (fun _ m => if m == "a" then GenOutcome.success "ok" else GenOutcome.timeoutErr)
        TagsResult.failure "p" "b" ["a"]).2.getLast? ≠ some "b" := by
  have h := timeout_and_success_policy
    (fun _ m => if m == "a" then GenOutcome.success "ok" else GenOutcome.timeoutErr)
    TagsResult.failure "p" "b" ["a"]
  refine ⟨(h.1 "a" "ok" (by decide) (by decide)).1,
    (h.1 "a" "ok" (by decide) (by decide)).2,
    h.2.2 "b" (by decide) (by decide) (by decide)⟩

theorem strAppend_assoc (a b c : String) : a ++ b ++ c = a ++ (b ++ c) := by
  rcases a with ⟨la⟩
  rcases b with ⟨lb⟩
  rcases c with ⟨lc⟩
  show String.mk (la ++ lb ++ lc) = String.mk (la ++ (lb ++ lc))
  rw [List.append_assoc]

theorem chunk_text_of_ne_nil (text : List Char) (c o : Nat) (h : text ≠ []) :
    chunk_text text c o = chunkFrom text c o text.length 0 := by
  have hne : text.isEmpty = false := by
    cases text with
    | nil => exact absurd rfl h
    | cons a l => rfl
  simp [chunk_text, hne]

/-- Claim C5: with `overlap < chunk_size`, concatenating the
non-overlapping portions of the windows reconstructs the text exactly,
the first chunk starts at offset 0 (it is `text[0 : chunk_size]`), the
last chunk's end offset is at least the text length, and the number of
windows is exactly `⌈len(text) / (chunk_size - overlap)⌉` — in
particular a 2500-character text with `chunk_size = 1000` and
`overlap = 200` produces exactly 4 chunks. -/
theorem chunker_window_properties (text : List Char) (chunk_size overlap : Nat)
    (h : overlap < chunk_size) :
    joinWindows (chunk_size - overlap) (chunk_text text chunk_size overlap) = text ∧
    (text ≠ [] → (chunk_text text chunk_size overlap).head? = some (text.take chunk_size)) ∧
    (text ≠ [] → ∃ s, s < text.length ∧ text.length ≤ s + chunk_size ∧
      (chunk_text text chunk_size overlap).getLast? = some ((text.drop s).take chunk_size)) ∧
    (chunk_text text chunk_size overlap).length =
      (text.length + (chunk_size - overlap) - 1) / (chunk_size - overlap) ∧
    (chunk_text (List.replicate 2500 'x') 1000 200).length = 4 := by
  have hs : slideStep chunk_size overlap = chunk_size - overlap := by
    unfold slideStep
    omega
  refine ⟨?_, ?_, ?_, ?_, ?_⟩
  · by_cases he : text = []
    · subst he
      rfl
    · have hlen : 0 < text.length := List.length_pos.mpr he
      rw [chunk_text_of_ne_nil text chunk_size overlap he, ← hs,
        chunkFrom_reconstruct text chunk_size overlap h text.length 0 (by omega) hlen,
        List.drop_zero]
  · intro he
    have hlen : 0 < text.length := List.length_pos.mpr he
    rw [chunk_text_of_ne_nil text chunk_size overlap he]
    obtain ⟨n, hn⟩ : ∃ n, text.length = n + 1 := ⟨text.length - 1, by omega⟩
    rw [hn]
    simp only [chunkFrom]
    rw [if_pos (by omega)]
    simp
  · intro he
    have hlen : 0 < text.length := List.length_pos.mpr he
    obtain ⟨s, _, hs1, hs2, hs3⟩ :=
      chunkFrom_getLast text chunk_size overlap h text.length 0 (by omega) hlen
    refine ⟨s, hs1, hs2, ?_⟩
    rw [chunk_text_of_ne_nil text chunk_size overlap he]
    exact hs3
  · rw [chunk_text_length, hs]
  · rw [chunk_text_length]
    simp only [List.length_replicate]
    decide

/-- Witness for C5 at a concrete input. -/
theorem chunker_window_properties_witness :
    1 < 2 ∧
    (joinWindows (2 - 1) (chunk_text ['x', 'y'] 2 1) = ['x', 'y'] ∧
      (['x', 'y'] ≠ ([] : List Char) →
        (chunk_text ['x', 'y'] 2 1).head? = some (['x', 'y'].take 2)) ∧
      (['x', 'y'] ≠ ([] : List Char) → ∃ s, s < ['x', 'y'].length ∧
        ['x', 'y'].length ≤ s + 2 ∧
        (chunk_text ['x', 'y'] 2 1).getLast? = some ((['x', 'y'].drop s).take 2)) ∧
      (chunk_text ['x', 'y'] 2 1).length = (['x', 'y'].length + (2 - 1) - 1) / (2 - 1) ∧
      (chunk_text (List.replicate 2500 'x') 1000 200).length = 4) :=
  ⟨by decide, chunker_window_properties ['x', 'y'] 2 1 (by decide)⟩

/-- Claim C6: when retrieval returned chunks and the model invocation
fails, `ask_question` returns a normal answer/sources payload whose
answer embeds the raw error inside a remediation checklist and whose
sources are empty; the memory-specific checklist is selected exactly
when the error text contains "unable to allocate" or "buffer"
case-insensitively, the generic checklist otherwise. -/
theorem model_failure_answer (net : String → String → GenOutcome) (tags : TagsResult)
    (results : RetrievalResult) (question msg : String)
    (hdocs : ¬((results.documents.getD []).isEmpty
        || ((results.documents.getD []).headD []).isEmpty) = true)
    (hfail : (query_ollama net tags
        (buildPrompt (String.intercalate "\n\n" ((results.documents.getD []).headD []))
          question) DEFAULT_MODEL FALLBACK_MODELS).1 = QueryResult.error msg) :
    (ask_question net tags results question).1 =
      (if pyIn "unable to allocate" (pyLower msg) || pyIn "buffer" (pyLower msg)
        then memoryChecklist msg else genericChecklist msg) ∧
    (ask_question net tags results question).2.1 = [] ∧
    (∃ pre post, (ask_question net tags results question).1 = pre ++ msg ++ post) := by
  have hask : ask_question net tags results question =
      (if isMemoryError msg then memoryChecklist msg else genericChecklist msg, [],
        (query_ollama net tags
          (buildPrompt (String.intercalate "\n\n" ((results.documents.getD []).headD []))
            question) DEFAULT_MODEL FALLBACK_MODELS).2) := by
    simp only [ask_question]
    rw [if_neg hdocs]
    rcases hq : query_ollama net tags
        (buildPrompt (String.intercalate "\n\n" ((results.documents.getD []).headD []))
          question) DEFAULT_MODEL FALLBACK_MODELS with ⟨qr, contacted⟩
    rw [hq] at hfail
    simp only at hfail
    subst hfail
    rfl
  refine ⟨by rw [hask]; rfl, by rw [hask], ?_⟩
  rw [hask]
  by_cases hmem : isMemoryError msg
  · refine ⟨"⚠️ Memory Error: ",
      "\n\nQuick fixes:\n" ++
      "1. Restart Ollama: Close terminal running \x27ollama serve\x27, then run it again\n" ++
      "2. Free up RAM: Close other applications\n" ++
      "3. Try a smaller model: Run \x27ollama pull tinyllama\x27 then restart\n" ++
      "4. Check available models: Visit http://localhost:8000/models", ?_⟩
    simp only [hmem, if_true]
    simp [memoryChecklist, strAppend_assoc]
  · refine ⟨"⚠️ Error: ",
      "\n\nPlease check:\n" ++
      "1. Is Ollama running? (Run \x27ollama serve\x27 in terminal)\n" ++
      "2. Is a model installed? (Run \x27ollama pull llama3.2:1b\x27 or \x27ollama pull tinyllama\x27)", ?_⟩
    simp only [Bool.not_eq_true] at hmem
    simp only [hmem, Bool.false_eq_true, if_false]
    simp [genericChecklist, strAppend_assoc]

/-- Witness for C6 at a concrete input: a connection failure produces
the generic checklist with empty sources. -/
theorem model_failure_answer_witness :
    (ask_question (fun _ _ => GenOutcome.connError) TagsResult.failure
        ⟨some [["ctx"]], none⟩ "q").1 = genericChecklist connErrorMsg ∧
    (ask_question (fun _ _ => GenOutcome.connError) TagsResult.failure
        ⟨some [["ctx"]], none⟩ "q").2.1 = [] := by
  have h := model_failure_answer (fun _ _ => GenOutcome.connError) TagsResult.failure
    ⟨some [["ctx"]], none⟩ "q" connErrorMsg (by decide) (by decide)
  refine ⟨?_, h.2.1⟩
  rw [h.1]
  have hc : (pyIn "unable to allocate" (pyLower connErrorMsg)
      || pyIn "buffer" (pyLower connErrorMsg)) = false := by decide
  rw [hc]
  rfl

/-- Claim C7: asking a question while the vector store holds zero
chunks (after a clear, retrieval returns the empty sequence per the
engine contract) yields the fixed "no documents" answer, empty sources,
and no model invocation at all (no candidate contacted). -/
theorem empty_store_short_circuit (net : String → String → GenOutcome) (tags : TagsResult)
    (question : String) (store : List StoreEntry) :
    applyOp store StoreOp.clear = [] ∧
    ask_question net tags (storeQuery (applyOp store StoreOp.clear)) question =
      (noDocumentsMsg, [], []) :=
  ⟨rfl, rfl⟩

/-- Claim C8: when every candidate's request comes back as a non-200
response whose error text is classified as resource exhaustion (so each
candidate advances the fallback), `query_ollama` contacts the whole
candidate list, queries the installed-model list (best-effort: empty on
failure), and raises a single composite error built from the last
observed error message, remediation text and — when the list is
non-empty — up to 5 installed model names (see `allModelsFailedMsg`). -/
theorem all_candidates_exhausted (net : String → String → GenOutcome) (tags : TagsResult)
    (prompt model : String) (fallback_models : List String)
    (st : String → Nat) (er : String → String)
    (hall : ∀ m ∈ build_candidates model fallback_models,
      net prompt m = GenOutcome.httpError (st m) (ErrBody.errorKey (er m)) ∧
      isMemoryError (statusMsgBase (st m) ++ ": " ++ er m) = true) :
    (query_ollama net tags prompt model fallback_models).1 =
      QueryResult.error (allModelsFailedMsg
        (some (er ((build_candidates model fallback_models).getLastD "")))
        (get_available_models tags)) ∧
    (query_ollama net tags prompt model fallback_models).2 =
      build_candidates model fallback_models ∧
    get_available_models TagsResult.failure = [] ∧
    (∃ pre post, allModelsFailedMsg
        (some (er ((build_candidates model fallback_models).getLastD "")))
        (get_available_models tags) =
      pre ++ er ((build_candidates model fallback_models).getLastD "") ++ post) := by
  have hnext : ∀ m ∈ build_candidates model fallback_models, ∀ le',
      loopStep (net prompt m) (m == (build_candidates model fallback_models).getLastD "") le' =
        StepAction.next (some (er m)) := by
    intro m hm le'
    rw [(hall m hm).1]
    simp [loopStep, (hall m hm).2]
  have hloop := queryLoop_exhaust net prompt
    ((build_candidates model fallback_models).getLastD "") er
    (build_candidates model fallback_models) none hnext
  have hlast : (build_candidates model fallback_models).getLast? =
      some ((build_candidates model fallback_models).getLastD "") :=
    getLast?_eq_getLastD _ "" (by unfold build_candidates; simp)
  rw [hlast] at hloop
  refine ⟨?_, ?_, rfl, ?_⟩
  · rw [query_ollama_eq]
    simp only
    rw [hloop]
    rfl
  · rw [query_ollama_eq]
    simp only
    rw [hloop]
  · exact ⟨"All models failed. Last error: ",
      "\n\nTry:\n" ++ "1. Restart Ollama: Close and run \x27ollama serve\x27 again\n" ++
      "2. Free up RAM: Close other applications\n" ++
      (if (get_available_models tags).isEmpty then
        "3. Install a smaller model: \x27ollama pull tinyllama\x27\n"
      else
        "3. Available models: " ++
          String.intercalate ", " ((get_available_models tags).take 5) ++ "\n"),
      by simp [allModelsFailedMsg, pyOptStr, strAppend_assoc]⟩

/-- Witness for C8 at a concrete input: memory errors on both of two
candidates exhaust the list and raise the composite message built from
the last error and the (failed, hence empty) installed-model listing. -/
theorem all_candidates_exhausted_witness :
    (query_ollama
        (fun _ _ => GenOutcome.httpError 500 (ErrBody.errorKey "unable to allocate memory"))
        TagsResult.failure "p" "b" ["a"]).1 =
      QueryResult.error (allModelsFailedMsg (some "unable to allocate memory") []) ∧
    (query_ollama
        (fun _ _ => GenOutcome.httpError 500 (ErrBody.errorKey "unable to allocate memory"))
        TagsResult.failure "p" "b" ["a"]).2 = ["b", "a"] := by
  have h := all_candidates_exhausted
    (fun _ _ => GenOutcome.httpError 500 (ErrBody.errorKey "unable to allocate memory"))
    TagsResult.failure "p" "b" ["a"] (fun _ => 500) (fun _ => "unable to allocate memory")
    (by
      intro m hm
      refine ⟨rfl, ?_⟩
      show isMemoryError (statusMsgBase 500 ++ ": " ++ "unable to allocate memory") = true
      decide)
  refine ⟨h.1, ?_⟩
  rw [h.2.1]
  decide

/-- Claim C9: every chunk stored by ingestion has id
`"<filename>_<index>"` with metadata source `filename` and chunk
`index` (stated as: the stored id is always the stored source, an
underscore, and the decimal stored index; and the ids of one upload's
batch are `filename_0 .. filename_(n-1)` in order), and after any
sequence of ingestion and clear operations no two stored chunks share
an id. -/
theorem store_ids_wellformed (ops : List StoreOp) :
    (∀ e ∈ runOps ops, e.id = e.source ++ "_" ++ toString e.index) ∧
    (runOps ops).Pairwise (fun a b => a.id ≠ b.id) ∧
    (∀ filename chunks, (uploadEntries filename chunks).map StoreEntry.id =
      (List.range chunks.length).map (fun i => filename ++ "_" ++ toString i)) :=
  ⟨(runOps_wf ops).1, (runOps_wf ops).2, fun fn ch => uploadEntries_ids fn ch⟩

/-- Witness for C9 at a concrete input: after uploading a one-chunk
document named "doc", the stored entry has id `"doc_0"` and the store's
ids are pairwise distinct. -/
theorem store_ids_wellformed_witness :
    (⟨"doc_0", "doc", 0, ['a']⟩ : StoreEntry) ∈ runOps [StoreOp.upload "doc" ['a']] ∧
    (⟨"doc_0", "doc", 0, ['a']⟩ : StoreEntry).id = "doc" ++ "_" ++ toString 0 ∧
    (runOps [StoreOp.upload "doc" ['a']]).Pairwise (fun a b => a.id ≠ b.id) := by
  refine ⟨by decide, ?_, (store_ids_wellformed [StoreOp.upload "doc" ['a']]).2.1⟩
  exact (store_ids_wellformed [StoreOp.upload "doc" ['a']]).1 _ (by decide)

/-- Claim C10: when retrieval returns documents but the result carries
no metadata entries at all, and the model call succeeds, `ask_question`
still returns the model's answer normally, with an empty sources
list. -/
theorem missing_metadata_empty_sources (net : String → String → GenOutcome)
    (tags : TagsResult) (question answer : String)
    (docs : List String) (rest : List (List String)) (hne : docs ≠ [])
    (hok : (query_ollama net tags (buildPrompt (String.intercalate "\n\n" docs) question)
        DEFAULT_MODEL FALLBACK_MODELS).1 = QueryResult.ok answer) :
    (ask_question net tags ⟨some (docs :: rest), none⟩ question).1 = answer ∧
    (ask_question net tags ⟨some (docs :: rest), none⟩ question).2.1 = [] := by
  have hdocs2 : docs.isEmpty = false := by
    cases docs with
    | nil => exact absurd rfl hne
    | cons a l => rfl
  rcases hq : query_ollama net tags (buildPrompt (String.intercalate "\n\n" docs) question)
      DEFAULT_MODEL FALLBACK_MODELS with ⟨qr, contacted⟩
  rw [hq] at hok
  simp only at hok
  subst hok
  have hstep : ask_question net tags ⟨some (docs :: rest), none⟩ question =
      (answer, [], contacted) := by
    simp only [ask_question, Option.getD_some, List.isEmpty_cons, List.headD_cons,
      Bool.false_or]
    rw [hdocs2, if_neg (by simp), hq]
    rfl
  rw [hstep]
  exact ⟨rfl, rfl⟩

/-- Witness for C10 at a concrete input. -/
theorem missing_metadata_empty_sources_witness :
    (["x"] : List String) ≠ [] ∧
    (ask_question (fun _ _ => GenOutcome.success "hello") TagsResult.failure
        ⟨some [["x"]], none⟩ "q").1 = "hello" ∧
    (ask_question (fun _ _ => GenOutcome.success "hello") TagsResult.failure
        ⟨some [["x"]], none⟩ "q").2.1 = [] := by
  have h := missing_metadata_empty_sources (fun _ _ => GenOutcome.success "hello")
    TagsResult.failure "q" "hello" ["x"] [] (by decide) (by decide)
  exact ⟨by decide, h.1, h.2⟩

end StudyAssistant
